import Mathlib

/-!
Shallow embedding of the chat session/message store of the Code Agent Bot
frontend (frontend/src/stores/chat.ts, shown inside App.tsx in this source
drop). The store is a zustand store; every remote call is modelled by
passing the response (or the failure) as an explicit argument to a pure
transition function on the store state. Timestamps that the code only ever
compares through new Date(x).getTime() are modelled directly as the
resulting integer millisecond value.
-/

namespace ChatStore

/-- Role of a chat message; the closed set from the Message interface. -/
inductive Role where
  | user
  | assistant
  | system
  | tool
  deriving DecidableEq, Repr

/-- Message record from the Message interface. The optional isStreaming
boolean of the source is modelled as a plain Bool, absent = false, which
matches the JS truthiness tests performed on it. The unknown[] payload of
tool invocations is modelled as an opaque list of strings. -/
structure Message where
  id : String
  role : Role
  content : String
  tool_call_id : Option String
  tool_calls : Option (List String)
  created_at : String
  isStreaming : Bool
  deriving DecidableEq, Repr

/-- Session record from the Session interface. created_at and updated_at
are modelled as the integer millisecond values the code obtains via
new Date(x).getTime(). -/
structure Session where
  id : String
  title : String
  description : Option String
  model_name : String
  is_archived : Bool
  is_pinned : Bool
  tags : List String
  total_tokens_used : Nat
  created_at : Int
  updated_at : Int
  message_count : Option Nat
  last_message_preview : Option String
  deriving DecidableEq, Repr

/-- Message cache: the Record of the source, modelled as a function so
that a missing key is distinguished from an empty list, exactly like a JS
object property that is absent versus present. -/
def Cache : Type := String → Option (List Message)

/-- Write of one cache key, the JS object spread with a computed key. -/
def cacheSet (m : Cache) (k : String) (v : List Message) : Cache :=
  fun q => if q = k then some v else m q

/-- Removal of one cache key, the JS delete operator on a copied object. -/
def cacheRemove (m : Cache) (k : String) : Cache :=
  fun q => if q = k then none else m q

/-- Store state: the ChatState interface of the source, data fields only. -/
structure ChatState where
  sessions : List Session
  currentSessionId : Option String
  sessionMessages : Cache
  isLoadingSessions : Bool
  isLoadingMessages : Bool
  isSending : Bool
  isGeneratingTitle : Bool
  streamingContent : String
  currentPhase : Option String
  error : Option String

/-- JS String.prototype.startsWith, modelled on the character sequence of
the string. -/
def strStartsWith (s p : String) : Bool :=
  p.data.isPrefixOf s.data

/-- Session comparator of togglePinSession as a Boolean less-or-equal:
cmp(a,b) is nonpositive exactly when a is pinned and b is not, or the flags
agree and b.updated_at is at most a.updated_at. -/
def sessionLEb (a b : Session) : Bool :=
  if a.is_pinned != b.is_pinned then a.is_pinned
  else decide (b.updated_at ≤ a.updated_at)

/-- Ordering relation induced by the comparator of togglePinSession. -/
def sessionBefore (a b : Session) : Prop :=
  sessionLEb a b = true

instance : DecidableRel sessionBefore :=
  fun a b => by unfold sessionBefore; infer_instance

instance : IsTotal Session sessionBefore := by
  constructor
  intro a b
  unfold sessionBefore sessionLEb
  rcases ha : a.is_pinned <;> rcases hb : b.is_pinned <;> simp <;> omega

instance : IsTrans Session sessionBefore := by
  constructor
  intro a b c
  unfold sessionBefore sessionLEb
  rcases a.is_pinned <;> rcases b.is_pinned <;> rcases c.is_pinned <;>
    simp <;> omega

/-- Local mirror step of togglePinSession on the session list: flip the
pinned flag of the matching entry to the server value, then sort the whole
list with the pin-first, newest-first comparator. The JS Array sort is
modelled by insertion sort over the induced total preorder; the claims
below depend only on orderedness and element preservation, not on the tie
order of the sorting algorithm. -/
def pinSessions (sid : String) (serverPinned : Bool) (l : List Session) :
    List Session :=
  List.insertionSort sessionBefore
    (l.map (fun s => if s.id = sid then { s with is_pinned := serverPinned } else s))

/-- Local mirror step of archiveSession and deleteSession on the session
list: drop the matching entry. -/
def removeSession (sid : String) (l : List Session) : List Session :=
  l.filter (fun s => s.id != sid)

/-- Success continuation of togglePinSession. -/
def togglePinSessionOk (sid : String) (serverPinned : Bool)
    (st : ChatState) : ChatState :=
  { st with sessions := pinSessions sid serverPinned st.sessions }

/-- Success continuation of archiveSession: the session leaves the list,
the current pointer is cleared when it matched; the message cache and the
error slot are not touched. -/
def archiveSessionOk (sid : String) (st : ChatState) : ChatState :=
  { st with
      sessions := removeSession sid st.sessions
      currentSessionId :=
        if st.currentSessionId = some sid then none else st.currentSessionId }

/-- Success continuation of deleteSession: additionally purges the cache
entry of the deleted session. -/
def deleteSessionOk (sid : String) (st : ChatState) : ChatState :=
  { st with
      sessions := removeSession sid st.sessions
      currentSessionId :=
        if st.currentSessionId = some sid then none else st.currentSessionId
      sessionMessages := cacheRemove st.sessionMessages sid }

/-- Failure continuation shared by deleteSession, archiveSession,
togglePinSession and updateSession: only the error slot is written. -/
def registryOpErr (msg : String) (st : ChatState) : ChatState :=
  { st with error := some msg }

/-- Synchronous prefix of generateSessionTitle: raise the loading flag. -/
def genTitleStart (st : ChatState) : ChatState :=
  { st with isGeneratingTitle := true }

/-- Success continuation of generateSessionTitle: merge title and
description into the matching entry and drop the loading flag. -/
def genTitleOk (sid title : String) (descr : Option String)
    (st : ChatState) : ChatState :=
  { st with
      sessions := st.sessions.map
        (fun s => if s.id = sid then { s with title := title, description := descr } else s)
      isGeneratingTitle := false }

/-- Failure continuation of generateSessionTitle: drop the loading flag and
nothing else. -/
def genTitleErr (st : ChatState) : ChatState :=
  { st with isGeneratingTitle := false }

/-- Response of GET /sessions/id as consumed by selectSession: the full
session object together with its message list (possibly absent, in which
case the code substitutes the empty list). -/
structure SessionDetail where
  meta : Session
  messages : Option (List Message)

/-- Synchronous prefix of selectSession: when a cache entry for the key
exists the key becomes current at once; then the loading flag is raised
and phase and error are cleared. -/
def selectSessionStart (sid : String) (st : ChatState) : ChatState :=
  let st1 :=
    if (st.sessionMessages sid).isSome
    then { st with currentSessionId := some sid } else st
  { st1 with isLoadingMessages := true, currentPhase := none, error := none }

/-- Resolution of the background refresh of selectSession. All writes are
keyed by the captured session identifier: the cache entry of that key is
replaced wholesale by the fetched list, the matching registry entry is
overwritten by the fetched session object (the JS object spread of a full
response), and the current pointer is set to the key unconditionally. -/
def selectSessionResolve (sid : String) (resp : SessionDetail)
    (st : ChatState) : ChatState :=
  { st with
      currentSessionId := some sid
      sessionMessages :=
        cacheSet st.sessionMessages sid ((resp.messages).getD [])
      sessions := st.sessions.map
        (fun s => if s.id = sid then resp.meta else s)
      isLoadingMessages := false }

/-- Rejection of the background refresh of selectSession. -/
def selectSessionErr (msg : String) (st : ChatState) : ChatState :=
  { st with error := some msg, isLoadingMessages := false }

/-! ### Streaming ingestion: sendMessage -/

/-- Decoded protocol event, the event discriminator union of the stream
loop of sendMessage. -/
inductive StreamEvent where
  | message (chunk : String)
  | phase (label : String)
  | done (assistant_message_id : String)
  | error (msg : String)
  deriving DecidableEq, Repr

/-- Provisional user message appended by sendMessage; its identifier is
the template literal temp-Date.now(). -/
def userMessage (content created : String) (ts : Nat) : Message :=
  { id := "temp-" ++ toString ts
    role := Role.user
    content := content
    tool_call_id := none
    tool_calls := none
    created_at := created
    isStreaming := false }

/-- Provisional assistant placeholder appended by sendMessage; its
identifier is the template literal temp-assistant-Date.now(). -/
def assistantPlaceholder (created : String) (ts : Nat) : Message :=
  { id := "temp-assistant-" ++ toString ts
    role := Role.assistant
    content := ""
    tool_call_id := none
    tool_calls := none
    created_at := created
    isStreaming := true }

/-- Synchronous prefix of sendMessage once a session identifier is known:
append the two provisional messages to the cache entry of that session
(an absent entry counts as empty), raise the sending flag, reset the
streamed-content mirror, set phase thinking and clear the error slot. -/
def sendStart (sid content ucreated acreated : String) (uts ats : Nat)
    (st : ChatState) : ChatState :=
  { st with
      sessionMessages :=
        cacheSet st.sessionMessages sid
          (((st.sessionMessages sid).getD []) ++
            [userMessage content ucreated uts,
             assistantPlaceholder acreated ats])
      isSending := true
      streamingContent := ""
      currentPhase := some "thinking"
      error := none }

/-- Local accumulator variables of the stream loop of sendMessage. -/
structure StreamAcc where
  streamedContent : String
  finalMessageId : String
  deriving DecidableEq, Repr

/-- Update of the trailing message performed by a message event: the
array is copied, the last element, when it exists and is streaming, gets
its content overwritten with the full accumulated buffer. -/
def setLastContent (ms : List Message) (sc : String) : List Message :=
  match ms.getLast? with
  | none => ms
  | some m =>
      if m.isStreaming then ms.dropLast ++ [{ m with content := sc }] else ms

/-- Dispatch of one decoded event inside the stream loop of sendMessage:
message extends the buffer and overwrites the trailing streaming message
with it, phase overwrites the phase slot, done records the final
identifier, error writes the error slot without stopping consumption. -/
def applyEvent (sid : String) (p : StreamAcc × ChatState)
    (ev : StreamEvent) : StreamAcc × ChatState :=
  match ev with
  | StreamEvent.message c =>
      let sc := p.1.streamedContent ++ c
      let ms := setLastContent ((p.2.sessionMessages sid).getD []) sc
      ({ p.1 with streamedContent := sc },
       { p.2 with
          sessionMessages := cacheSet p.2.sessionMessages sid ms
          streamingContent := sc })
  | StreamEvent.phase q => (p.1, { p.2 with currentPhase := some q })
  | StreamEvent.done i => ({ p.1 with finalMessageId := i }, p.2)
  | StreamEvent.error m => (p.1, { p.2 with error := some m })

/-- Stream loop of sendMessage over an already-decoded event sequence. -/
def applyEvents (sid : String) (evs : List StreamEvent)
    (p : StreamAcc × ChatState) : StreamAcc × ChatState :=
  evs.foldl (applyEvent sid) p

/-- Finalization at end-of-stream: the trailing message, when it exists
and is streaming, drops the streaming flag and, when a done identifier was
captured (JS truthiness: a nonempty string), takes it as identifier; the
sending flag and the phase slot are cleared. -/
def finalizeStream (sid finalId : String) (st : ChatState) : ChatState :=
  let ms0 := (st.sessionMessages sid).getD []
  let ms :=
    match ms0.getLast? with
    | none => ms0
    | some m =>
        if m.isStreaming then
          ms0.dropLast ++
            [{ m with
                isStreaming := false
                id := if finalId ≠ "" then finalId else m.id }]
        else ms0
  { st with
      sessionMessages := cacheSet st.sessionMessages sid ms
      isSending := false
      currentPhase := none }

/-- Catch block of sendMessage: every message of the session whose
identifier starts with temp- is stripped from the cache entry, the failure
message is recorded and the sending flag and phase are cleared. -/
def sendFail (sid errMsg : String) (st : ChatState) : ChatState :=
  { st with
      sessionMessages :=
        cacheSet st.sessionMessages sid
          (((st.sessionMessages sid).getD []).filter
            (fun m => !(strStartsWith m.id "temp-")))
      error := some errMsg
      isSending := false
      currentPhase := none }

/-- Whole successful sendMessage run on a known session: start, apply the
decoded events in arrival order, finalize, then decide whether a
title-generation call is scheduled (message count at most two after
finalization). The unconditional fetchSessions refresh is an external
remote call with no synchronous state effect and is not part of the
state transition. -/
def sendMessageSuccess (sid content ucreated acreated : String)
    (uts ats : Nat) (evs : List StreamEvent) (st : ChatState) :
    ChatState × Bool :=
  let st1 := sendStart sid content ucreated acreated uts ats st
  let r := applyEvents sid evs ({ streamedContent := "", finalMessageId := "" }, st1)
  let st2 := finalizeStream sid r.1.finalMessageId r.2
  (st2, decide (((st2.sessionMessages sid).getD []).length ≤ 2))

/-- Whole failing sendMessage run on a known session: start, apply the
events decoded before the transport failure, then run the catch block. -/
def sendMessageFailure (sid content ucreated acreated : String)
    (uts ats : Nat) (evs : List StreamEvent) (errMsg : String)
    (st : ChatState) : ChatState :=
  let st1 := sendStart sid content ucreated acreated uts ats st
  let r := applyEvents sid evs ({ streamedContent := "", finalMessageId := "" }, st1)
  sendFail sid errMsg r.2

/-! ### Stream decoding: bytes to events -/

/-- Concatenation of the message fragments of an event sequence, the value
of the streamedContent accumulator after the sequence. -/
def chunksConcat : List StreamEvent → String
  | [] => ""
  | StreamEvent.message c :: evs => c ++ chunksConcat evs
  | _ :: evs => chunksConcat evs

/-- Splitting of a character sequence at every newline, the behaviour of
the JS split on a one-character separator: consecutive separators and
separators at either end produce empty pieces. -/
def splitNewlines : List Char → List (List Char)
  | [] => [[]]
  | c :: rest =>
      match splitNewlines rest with
      | [] => [[]]
      | l :: ls => if c = '\n' then [] :: l :: ls else (c :: l) :: ls

/-- Line splitting of one decoded read, JS chunk.split of a newline. -/
def splitLines (s : String) : List String :=
  (splitNewlines s.data).map List.asString

/-- JS String.prototype.slice with a nonnegative start, modelled on the
character sequence. -/
def strDrop (s : String) (n : Nat) : String :=
  (s.data.drop n).asString

/-- Exact-shape match of a character sequence against a fixed frame
prefix and suffix with an arbitrary quote-free payload in between. -/
def parseBetween (s pre post : List Char) : Option (List Char) :=
  if pre.length + post.length ≤ s.length then
    let mid := (s.drop pre.length).take (s.length - (pre.length + post.length))
    if mid.all (fun c => c ≠ '"') ∧ s = pre ++ mid ++ post then some mid
    else none
  else none

/-- Model of JSON.parse followed by the event dispatch of the stream loop,
restricted to the four frame shapes of the protocol with plain
(escape-free) string payloads. A payload that is not a complete frame of
one of these shapes, in particular one truncated by a mid-frame chunk
split, yields none, as JSON.parse would throw and the catch block discards
the frame. -/
def parsePayload (s : String) : Option StreamEvent :=
  let try1 := fun (ev key : String) =>
    (parseBetween s.data
      ("\x7b\"event\":\"" ++ ev ++ "\",\"data\":\x7b\"" ++ key ++ "\":\"").data
      ("\"\x7d\x7d").data).map List.asString
  match try1 "message" "chunk" with
  | some c => some (StreamEvent.message c)
  | none =>
  match try1 "phase" "phase" with
  | some c => some (StreamEvent.phase c)
  | none =>
  match try1 "done" "assistant_message_id" with
  | some c => some (StreamEvent.done c)
  | none =>
  match try1 "error" "message" with
  | some c => some (StreamEvent.error c)
  | none => none

/-- Per-read decoding step of the stream loop of sendMessage: the decoded
text of one read is split on newlines eagerly, every line carrying the
data prefix has its remainder handed to the JSON parser, and frames whose
payload fails to parse are silently discarded. No bytes are carried over
to the next read. -/
def decodeChunk (chunk : String) : List StreamEvent :=
  ((splitLines chunk).filterMap
    (fun line =>
      if strStartsWith line "data: " then parsePayload (strDrop line 6)
      else none))

/-- Decoding of a whole transport read sequence by the stream loop: each
read chunk is decoded independently. -/
def decodeStream (chunks : List String) : List StreamEvent :=
  chunks.flatMap decodeChunk

/-! ### Session registry operation sequences -/

/-- One registry operation of the three the order claim ranges over,
carrying the server response where one is consumed locally. -/
inductive SessionOp where
  | pin (sid : String) (serverPinned : Bool)
  | archive (sid : String)
  | delete (sid : String)
  deriving DecidableEq, Repr

/-- Local list effect of one registry operation. -/
def applySessionOp (l : List Session) : SessionOp → List Session
  | SessionOp.pin sid p => pinSessions sid p l
  | SessionOp.archive sid => removeSession sid l
  | SessionOp.delete sid => removeSession sid l

/-- Local list effect of a sequence of registry operations. -/
def applySessionOps (l : List Session) (ops : List SessionOp) : List Session :=
  ops.foldl applySessionOp l

/-- Identifiers archived or deleted somewhere in an operation sequence. -/
def removedIds (ops : List SessionOp) : List String :=
  ops.filterMap (fun op =>
    match op with
    | SessionOp.pin _ _ => none
    | SessionOp.archive sid => some sid
    | SessionOp.delete sid => some sid)

/-- Order predicate of the spec: every pinned session precedes every
non-pinned one. -/
def pinnedFirst (l : List Session) : Prop :=
  l.Pairwise (fun a b => b.is_pinned = true → a.is_pinned = true)

/-- Order predicate of the spec: within a block of equal pin flag, the
list is ordered by descending update time. -/
def blocksByRecency (l : List Session) : Prop :=
  l.Pairwise (fun a b => a.is_pinned = b.is_pinned → b.updated_at ≤ a.updated_at)

instance (l : List Session) : Decidable (pinnedFirst l) := by
  unfold pinnedFirst; infer_instance

instance (l : List Session) : Decidable (blocksByRecency l) := by
  unfold blocksByRecency; infer_instance

/-! ### Concrete fixtures used by witnesses and counterexamples -/

/-- Session value with the given identifier, pin flag and update time. -/
def mkSession (sid : String) (pinned : Bool) (upd : Int) : Session :=
  { id := sid
    title := "New Chat"
    description := none
    model_name := "default"
    is_archived := false
    is_pinned := pinned
    tags := []
    total_tokens_used := 0
    created_at := 0
    updated_at := upd
    message_count := none
    last_message_preview := none }

/-- Store state with one session s1 whose cache entry is present and
empty. -/
def baseState : ChatState :=
  { sessions := [mkSession "s1" false 0]
    currentSessionId := some "s1"
    sessionMessages := fun q => if q = "s1" then some [] else none
    isLoadingSessions := false
    isLoadingMessages := false
    isSending := false
    isGeneratingTitle := false
    streamingContent := ""
    currentPhase := none
    error := none }

/-- Server-persisted message with a durable identifier. -/
def persistedMsg : Message :=
  { id := "m-1"
    role := Role.user
    content := "earlier"
    tool_call_id := none
    tool_calls := none
    created_at := "t1"
    isStreaming := false }

/-- Finalized assistant message that kept its provisional identifier, the
reachable outcome of a completed stream that never delivered a done
event. -/
def staleTempMsg : Message :=
  { id := "temp-assistant-3"
    role := Role.assistant
    content := "earlier reply"
    tool_call_id := none
    tool_calls := none
    created_at := "t2"
    isStreaming := false }

/-- In-flight assistant message used to exercise the message-event step. -/
def streamingMsg : Message :=
  { id := "temp-assistant-7"
    role := Role.assistant
    content := "Hi"
    tool_call_id := none
    tool_calls := none
    created_at := "t3"
    isStreaming := true }

/-- State whose s1 cache already holds a finalized message with a
provisional identifier before a new send begins. -/
def c1state : ChatState :=
  { baseState with
      sessionMessages := fun q => if q = "s1" then some [staleTempMsg] else none }

/-- State whose s1 cache holds one durable message before a send. -/
def w1state : ChatState :=
  { baseState with
      sessionMessages := fun q => if q = "s1" then some [persistedMsg] else none }

/-- State whose s1 cache ends in a streaming assistant message. -/
def w4state : ChatState :=
  { baseState with
      sessionMessages := fun q => if q = "s1" then some [streamingMsg] else none }

/-- Store state reached after the first k decoded events of one stream
that started from the given pre-send state. -/
def midStreamState (sid content ucreated acreated : String) (uts ats : Nat)
    (evs : List StreamEvent) (k : Nat) (st : ChatState) : ChatState :=
  (applyEvents sid (evs.take k)
    ({ streamedContent := "", finalMessageId := "" },
     sendStart sid content ucreated acreated uts ats st)).2

/-- Event sequence of the hello scenario. -/
def helloEvents : List StreamEvent :=
  [StreamEvent.message "H", StreamEvent.message "He", StreamEvent.message "Hello",
   StreamEvent.phase "responding", StreamEvent.done "m-42"]

/-- Full run of the hello scenario on a session with zero prior
messages. -/
def helloRun : ChatState × Bool :=
  sendMessageSuccess "s1" "hello" "T0" "T0" 7 7 helloEvents baseState

/-- One complete protocol frame followed by its newline. -/
def frameText : String :=
  "data: \x7b\"event\":\"message\",\"data\":\x7b\"chunk\":\"Hi\"\x7d\x7d\n"

/-- Front part of the same frame as cut by a mid-line transport read. -/
def frontHalf : String :=
  "data: \x7b\"event\":\"message\",\"data\":\x7b\"chu"

/-- Back part of the same frame as cut by a mid-line transport read. -/
def backHalf : String :=
  "nk\":\"Hi\"\x7d\x7d\n"

/-! ### Helper lemmas -/

theorem cacheSet_same (m : Cache) (k : String) (v : List Message) :
    cacheSet m k v k = some v := by
  simp [cacheSet]

theorem cacheSet_ne (m : Cache) (k : String) (v : List Message) (q : String)
    (h : q ≠ k) : cacheSet m k v q = m q := by
  simp [cacheSet, h]

theorem strStartsWith_append (p s : String) :
    strStartsWith (p ++ s) p = true := by
  unfold strStartsWith
  simp

theorem tempUser_starts (content created : String) (ts : Nat) :
    strStartsWith (userMessage content created ts).id "temp-" = true :=
  strStartsWith_append "temp-" (toString ts)

theorem tempAssistant_starts (created : String) (ts : Nat) :
    strStartsWith (assistantPlaceholder created ts).id "temp-" = true := by
  show strStartsWith ("temp-assistant-" ++ toString ts) "temp-" = true
  have h0 : ("temp-assistant-" : String) = "temp-" ++ "assistant-" := by decide
  rw [h0, String.append_assoc]
  exact strStartsWith_append "temp-" ("assistant-" ++ toString ts)

/-! ### Claim theorems, part one -/

/-- C2 (code evaluated at the failing input): the two transport reads
concatenate to one complete frame plus newline; delivered whole, the
decoder yields the message event, but delivered split mid-line the
per-read decoder yields nothing, because it never buffers the undecoded
trailing bytes of a read. -/
theorem decoder_drops_split_frame :
    frameText = frontHalf ++ backHalf ∧
    decodeStream [frameText] = [StreamEvent.message "Hi"] ∧
    decodeStream [frontHalf, backHalf] = [] := by
  decide

/-- C5 counterexample: running the hello scenario as specified leaves the
assistant content HHeHello, because every message event appends its whole
payload to the buffer, so the cached contents are not hello and Hello. -/
theorem scenario_hello_cex :
    ¬ ((helloRun.1.sessionMessages "s1").getD []).map
        (fun m => m.content) = ["hello", "Hello"] := by
  decide

/-- C5 (amended): the hello scenario with fragments H, He, Hello ends
with a two-message session, the user message hello, the assistant message
carrying the appended buffer HHeHello under the server identifier m-42
with the streaming flag cleared, the sending flag and phase cleared, and
a title-generation call scheduled. -/
theorem scenario_hello_amended :
    (helloRun.1.sessionMessages "s1").getD [] =
      [{ id := "temp-7"
         role := Role.user
         content := "hello"
         tool_call_id := none
         tool_calls := none
         created_at := "T0"
         isStreaming := false },
       { id := "m-42"
         role := Role.assistant
         content := "HHeHello"
         tool_call_id := none
         tool_calls := none
         created_at := "T0"
         isStreaming := false }] ∧
    helloRun.2 = true ∧
    helloRun.1.isSending = false ∧
    helloRun.1.currentPhase = none := by
  decide

/-- C7: when messages for the key are already cached, selectSession makes
the key current immediately; whenever the background refresh resolves, in
whatever store state, the fetched list replaces the cache entry of that
key wholesale, every other cache entry is untouched, and the fetched
session object is merged into the registry entry matching the key. -/
theorem selectSession_cached_switch_and_keyed_refresh
    (st : ChatState) (sid : String)
    (hcached : (st.sessionMessages sid).isSome = true) :
    (selectSessionStart sid st).currentSessionId = some sid ∧
    ∀ (st2 : ChatState) (resp : SessionDetail),
      (selectSessionResolve sid resp st2).sessionMessages sid
          = some ((resp.messages).getD []) ∧
      (∀ q, q ≠ sid →
        (selectSessionResolve sid resp st2).sessionMessages q
          = st2.sessionMessages q) ∧
      (selectSessionResolve sid resp st2).sessions
          = st2.sessions.map (fun s => if s.id = sid then resp.meta else s) := by
  constructor
  · simp [selectSessionStart, hcached]
  · intro st2 resp
    exact ⟨cacheSet_same _ _ _, fun q hq => cacheSet_ne _ _ _ _ hq, rfl⟩

/-- C7 witness: with the cached fixture state the switch is immediate. -/
theorem selectSession_cached_witness :
    (selectSessionStart "s1" baseState).currentSessionId = some "s1" :=
  (selectSession_cached_switch_and_keyed_refresh baseState "s1" (by decide)).1

/-- C8: when the remote call of generateSessionTitle fails, the loading
flag is cleared and every other piece of store state, in particular the
error slot, the session list and all message caches, is left unchanged;
on success only title and description of the matching entry are merged
and the loading flag is cleared. -/
theorem generateSessionTitle_failure_silent
    (st : ChatState) (sid title : String) (descr : Option String) :
    (genTitleErr (genTitleStart st)).isGeneratingTitle = false ∧
    (genTitleErr (genTitleStart st)).error = st.error ∧
    (genTitleErr (genTitleStart st)).sessions = st.sessions ∧
    (genTitleErr (genTitleStart st)).sessionMessages = st.sessionMessages ∧
    (genTitleErr (genTitleStart st)).currentSessionId = st.currentSessionId ∧
    (genTitleErr (genTitleStart st)).isLoadingSessions = st.isLoadingSessions ∧
    (genTitleErr (genTitleStart st)).isLoadingMessages = st.isLoadingMessages ∧
    (genTitleErr (genTitleStart st)).isSending = st.isSending ∧
    (genTitleErr (genTitleStart st)).streamingContent = st.streamingContent ∧
    (genTitleErr (genTitleStart st)).currentPhase = st.currentPhase ∧
    (genTitleOk sid title descr (genTitleStart st)).sessions
        = st.sessions.map
            (fun s => if s.id = sid then { s with title := title, description := descr } else s) ∧
    (genTitleOk sid title descr (genTitleStart st)).error = st.error ∧
    (genTitleOk sid title descr (genTitleStart st)).sessionMessages
        = st.sessionMessages :=
  ⟨rfl, rfl, rfl, rfl, rfl, rfl, rfl, rfl, rfl, rfl, rfl, rfl, rfl⟩

/-- C9: the resolution of the selectSession background refresh sets the
current-session pointer to the captured key unconditionally, so a switch
made while the fetch was in flight is reverted on resolution. -/
theorem selectSessionResolve_sets_current_unconditionally
    (st : ChatState) (sid : String) (resp : SessionDetail) :
    (selectSessionResolve sid resp st).currentSessionId = some sid :=
  rfl

/-- C10: archiveSession on success leaves no session with the archived
identifier in the list, clears the current pointer exactly when it
matched, keeps the whole message cache, the archived entry included, and
the error slot; deleteSession by contrast purges the cache entry of the
deleted key and only that key. -/
theorem archiveSession_keeps_message_cache (st : ChatState) (sid : String) :
    (archiveSessionOk sid st).sessionMessages = st.sessionMessages ∧
    (∀ s ∈ (archiveSessionOk sid st).sessions, s.id ≠ sid) ∧
    (archiveSessionOk sid st).currentSessionId
        = (if st.currentSessionId = some sid then none else st.currentSessionId) ∧
    (archiveSessionOk sid st).error = st.error ∧
    (deleteSessionOk sid st).sessionMessages sid = none ∧
    (∀ q, q ≠ sid →
      (deleteSessionOk sid st).sessionMessages q = st.sessionMessages q) := by
  refine ⟨rfl, ?_, rfl, rfl, ?_, ?_⟩
  · intro s hs
    have hs2 := (List.mem_filter.mp hs).2
    simpa using hs2
  · simp [deleteSessionOk, cacheRemove]
  · intro q hq
    simp [deleteSessionOk, cacheRemove, hq]

/-- C10 witness: deleting a session purges its cache entry while
archiving preserves it, on the fixture state. -/
theorem archiveSession_keeps_message_cache_witness :
    (deleteSessionOk "s1" baseState).sessionMessages "s2"
        = baseState.sessionMessages "s2" :=
  (archiveSession_keeps_message_cache baseState "s1").2.2.2.2.2 "s2" (by decide)

/-! ### Order invariant of the session list -/

theorem sessionBefore_pinned (a b : Session) (h : sessionBefore a b) :
    b.is_pinned = true → a.is_pinned = true := by
  unfold sessionBefore sessionLEb at h
  rcases ha : a.is_pinned <;> rcases hb : b.is_pinned <;>
    simp [ha, hb] at h ⊢

theorem sessionBefore_time (a b : Session) (h : sessionBefore a b) :
    a.is_pinned = b.is_pinned → b.updated_at ≤ a.updated_at := by
  intro hab
  unfold sessionBefore sessionLEb at h
  rcases ha : a.is_pinned <;> rcases hb : b.is_pinned <;>
    simp [ha, hb] at h hab ⊢ <;> omega

theorem sorted_applySessionOp (l : List Session) (op : SessionOp)
    (h : List.Sorted sessionBefore l) :
    List.Sorted sessionBefore (applySessionOp l op) := by
  cases op with
  | pin sid p => exact List.sorted_insertionSort sessionBefore _
  | archive sid => exact h.filter _
  | delete sid => exact h.filter _

theorem sorted_applySessionOps (ops : List SessionOp) :
    ∀ l : List Session, List.Sorted sessionBefore l →
      List.Sorted sessionBefore (applySessionOps l ops) := by
  induction ops with
  | nil => intro l h; exact h
  | cons op ops ih =>
      intro l h
      exact ih (applySessionOp l op) (sorted_applySessionOp l op h)

theorem absent_applySessionOp (l : List Session) (op : SessionOp)
    (sid : String) (h : ∀ s ∈ l, s.id ≠ sid) :
    ∀ s ∈ applySessionOp l op, s.id ≠ sid := by
  cases op with
  | pin psid p =>
      intro s hs
      unfold applySessionOp pinSessions at hs
      have hmem := ((List.perm_insertionSort sessionBefore _).mem_iff).mp hs
      obtain ⟨t, ht, rfl⟩ := List.mem_map.mp hmem
      by_cases hts : t.id = psid
      · simpa [hts] using h t ht
      · simpa [hts] using h t ht
  | archive asid =>
      intro s hs
      exact h s (List.mem_filter.mp hs).1
  | delete dsid =>
      intro s hs
      exact h s (List.mem_filter.mp hs).1

theorem absent_applySessionOps (ops : List SessionOp) (sid : String) :
    ∀ l : List Session, (∀ s ∈ l, s.id ≠ sid) →
      ∀ s ∈ applySessionOps l ops, s.id ≠ sid := by
  induction ops with
  | nil => intro l h; exact h
  | cons op ops ih =>
      intro l h
      exact ih (applySessionOp l op) (absent_applySessionOp l op sid h)

theorem removeSession_absent (l : List Session) (sid : String) :
    ∀ s ∈ removeSession sid l, s.id ≠ sid := by
  intro s hs
  have hs2 := (List.mem_filter.mp hs).2
  simpa using hs2

theorem removedIds_absent (ops : List SessionOp) :
    ∀ (l : List Session), ∀ sid ∈ removedIds ops,
      ∀ s ∈ applySessionOps l ops, s.id ≠ sid := by
  induction ops with
  | nil =>
      intro l sid hsid
      simp [removedIds] at hsid
  | cons op ops ih =>
      intro l sid hsid s hs
      have hstep : applySessionOps l (op :: ops)
          = applySessionOps (applySessionOp l op) ops := rfl
      rw [hstep] at hs
      cases op with
      | pin psid p =>
          have hmem : sid ∈ removedIds ops := by
            simpa [removedIds, List.filterMap_cons] using hsid
          exact ih (applySessionOp l (SessionOp.pin psid p)) sid hmem s hs
      | archive asid =>
          have hmem : sid = asid ∨ sid ∈ removedIds ops := by
            simpa [removedIds, List.filterMap_cons] using hsid
          rcases hmem with h1 | h1
          · subst h1
            exact absent_applySessionOps ops sid (removeSession sid l) (removeSession_absent l sid) s hs
          · exact ih (applySessionOp l (SessionOp.archive asid)) sid h1 s hs
      | delete dsid =>
          have hmem : sid = dsid ∨ sid ∈ removedIds ops := by
            simpa [removedIds, List.filterMap_cons] using hsid
          rcases hmem with h1 | h1
          · subst h1
            exact absent_applySessionOps ops sid (removeSession sid l) (removeSession_absent l sid) s hs
          · exact ih (applySessionOp l (SessionOp.delete dsid)) sid h1 s hs

/-- C6 (amended): starting from a session list already ordered by the
pin-first, newest-first rule, any sequence of pin, archive and delete
operations keeps pinned sessions before non-pinned ones with each block
ordered by descending update time, and the resulting list contains no
session whose identifier was archived or deleted by the sequence. For an
initial list violating the order, a sequence with no pin operation
preserves the violation, so the order hypothesis is required. -/
theorem sessionOps_keep_order_and_absence (l : List Session)
    (ops : List SessionOp) (hsorted : List.Sorted sessionBefore l) :
    pinnedFirst (applySessionOps l ops) ∧
    blocksByRecency (applySessionOps l ops) ∧
    ∀ sid ∈ removedIds ops, ∀ s ∈ applySessionOps l ops, s.id ≠ sid := by
  have hs := sorted_applySessionOps ops l hsorted
  refine ⟨?_, ?_, removedIds_absent ops l⟩
  · exact hs.imp (fun hab => sessionBefore_pinned _ _ hab)
  · exact hs.imp (fun hab => sessionBefore_time _ _ hab)

/-- C6 counterexample: on an initial list where a non-pinned session
precedes a pinned one, a sequence holding only a delete of an absent
identifier leaves the list unchanged, so the resulting list does not put
pinned sessions first; the claim quantifies over every session list and
is therefore false without an order assumption on the initial list. -/
theorem sessionOps_order_cex :
    ¬ pinnedFirst
        (applySessionOps [mkSession "a" false 9, mkSession "b" true 5]
          [SessionOp.delete "zzz"]) := by
  decide

/-- C6 witness: a pin toggle followed by an archive on an ordered
two-session list keeps the order invariant. -/
theorem sessionOps_keep_order_witness :
    pinnedFirst
      (applySessionOps [mkSession "b" true 5, mkSession "a" false 9]
        [SessionOp.pin "a" true, SessionOp.archive "b"]) ∧
    blocksByRecency
      (applySessionOps [mkSession "b" true 5, mkSession "a" false 9]
        [SessionOp.pin "a" true, SessionOp.archive "b"]) :=
  ⟨(sessionOps_keep_order_and_absence _ _ (by decide)).1,
   (sessionOps_keep_order_and_absence _ _ (by decide)).2.1⟩

/-! ### Stream loop invariants -/

theorem sendStart_cache (st : ChatState)
    (sid content ucreated acreated : String) (uts ats : Nat) :
    (sendStart sid content ucreated acreated uts ats st).sessionMessages sid
      = some ((((st.sessionMessages sid).getD [])
          ++ [userMessage content ucreated uts])
          ++ [assistantPlaceholder acreated ats]) := by
  show cacheSet _ sid _ sid = _
  rw [cacheSet_same]
  simp

theorem setLastContent_concat (ms : List Message) (a : Message) (sc : String)
    (ha : a.isStreaming = true) :
    setLastContent (ms ++ [a]) sc = ms ++ [{ a with content := sc }] := by
  unfold setLastContent
  rw [List.getLast?_concat]
  simp [ha]

theorem chunksConcat_append (l1 l2 : List StreamEvent) :
    chunksConcat (l1 ++ l2) = chunksConcat l1 ++ chunksConcat l2 := by
  induction l1 with
  | nil => simp [chunksConcat]
  | cons e l1 ih => cases e <;> simp [chunksConcat, ih, String.append_assoc]

theorem applyEvents_cache (sid : String) (evs : List StreamEvent) :
    ∀ (acc : StreamAcc) (st : ChatState) (ms : List Message) (a : Message),
      st.sessionMessages sid = some (ms ++ [a]) →
      a.isStreaming = true →
      a.content = acc.streamedContent →
      (applyEvents sid evs (acc, st)).1.streamedContent
          = acc.streamedContent ++ chunksConcat evs ∧
      (applyEvents sid evs (acc, st)).2.sessionMessages sid
          = some (ms ++ [{ a with content := acc.streamedContent ++ chunksConcat evs }]) ∧
      (∀ q, q ≠ sid →
        (applyEvents sid evs (acc, st)).2.sessionMessages q
          = st.sessionMessages q) := by
  induction evs with
  | nil =>
      intro acc st ms a hcache ha hc
      refine ⟨by simp [applyEvents, chunksConcat], ?_, ?_⟩
      · show st.sessionMessages sid = _
        rw [hcache]
        have he : ({ a with content := acc.streamedContent ++ chunksConcat [] } : Message) = a := by
          rw [show chunksConcat [] = "" from rfl, String.append_empty, ← hc]
        rw [he]
      · intro q hq; rfl
  | cons ev evs ih =>
      intro acc st ms a hcache ha hc
      cases ev with
      | message c =>
          have hset : setLastContent ((st.sessionMessages sid).getD [])
              (acc.streamedContent ++ c)
              = ms ++ [{ a with content := acc.streamedContent ++ c }] := by
            rw [hcache]
            exact setLastContent_concat ms a _ ha
          have hfold : applyEvents sid (StreamEvent.message c :: evs) (acc, st)
              = applyEvents sid evs
                  ({ acc with streamedContent := acc.streamedContent ++ c },
                   { st with
                      sessionMessages := cacheSet st.sessionMessages sid
                        (ms ++ [{ a with content := acc.streamedContent ++ c }])
                      streamingContent := acc.streamedContent ++ c }) := by
            show applyEvents sid evs (applyEvent sid (acc, st) (StreamEvent.message c)) = _
            simp only [applyEvent]
            rw [hset]
          obtain ⟨h1, h2, h3⟩ := ih
            { acc with streamedContent := acc.streamedContent ++ c }
            { st with
                sessionMessages := cacheSet st.sessionMessages sid
                  (ms ++ [{ a with content := acc.streamedContent ++ c }])
                streamingContent := acc.streamedContent ++ c }
            ms { a with content := acc.streamedContent ++ c }
            (cacheSet_same _ _ _) ha rfl
          refine ⟨?_, ?_, ?_⟩
          · rw [hfold, h1]
            simp [chunksConcat, String.append_assoc]
          · rw [hfold, h2]
            simp [chunksConcat, String.append_assoc]
          · intro q hq
            rw [hfold, h3 q hq]
            exact cacheSet_ne _ _ _ _ hq
      | phase lbl =>
          have hfold : applyEvents sid (StreamEvent.phase lbl :: evs) (acc, st)
              = applyEvents sid evs (acc, { st with currentPhase := some lbl }) := rfl
          obtain ⟨h1, h2, h3⟩ := ih acc { st with currentPhase := some lbl }
            ms a hcache ha hc
          exact ⟨by rw [hfold]; exact h1, by rw [hfold]; exact h2,
            fun q hq => by rw [hfold]; exact h3 q hq⟩
      | done i =>
          have hfold : applyEvents sid (StreamEvent.done i :: evs) (acc, st)
              = applyEvents sid evs ({ acc with finalMessageId := i }, st) := rfl
          obtain ⟨h1, h2, h3⟩ := ih { acc with finalMessageId := i } st ms a hcache ha hc
          exact ⟨by rw [hfold]; exact h1, by rw [hfold]; exact h2,
            fun q hq => by rw [hfold]; exact h3 q hq⟩
      | error m =>
          have hfold : applyEvents sid (StreamEvent.error m :: evs) (acc, st)
              = applyEvents sid evs (acc, { st with error := some m }) := rfl
          obtain ⟨h1, h2, h3⟩ := ih acc { st with error := some m } ms a hcache ha hc
          exact ⟨by rw [hfold]; exact h1, by rw [hfold]; exact h2,
            fun q hq => by rw [hfold]; exact h3 q hq⟩

/-- C1 (amended): when the stream request throws after zero or more
message events were applied, the catch block strips every message whose
identifier starts with temp- from the cached sequence, records the
failure in the error slot and clears the sending flag and phase; the
final cached sequence therefore equals the pre-send sequence byte for
byte provided no pre-send message itself carries a temp-prefixed
identifier. Without that proviso the claim fails, because a completed
stream that never delivered a done event leaves a finalized message with
a temp-prefixed identifier in the cache, and the next failing send
strips it too. -/
theorem sendMessage_failure_rollback
    (st : ChatState) (sid content ucreated acreated errMsg : String)
    (uts ats : Nat) (evs : List StreamEvent)
    (hpre : ∀ m ∈ (st.sessionMessages sid).getD [],
      strStartsWith m.id "temp-" = false) :
    ((sendMessageFailure sid content ucreated acreated uts ats evs errMsg st).sessionMessages sid).getD []
        = (st.sessionMessages sid).getD [] ∧
    (sendMessageFailure sid content ucreated acreated uts ats evs errMsg st).error
        = some errMsg ∧
    (sendMessageFailure sid content ucreated acreated uts ats evs errMsg st).isSending
        = false ∧
    (sendMessageFailure sid content ucreated acreated uts ats evs errMsg st).currentPhase
        = none := by
  refine ⟨?_, rfl, rfl, rfl⟩
  obtain ⟨h1, h2, h3⟩ := applyEvents_cache sid evs
    { streamedContent := "", finalMessageId := "" }
    (sendStart sid content ucreated acreated uts ats st)
    (((st.sessionMessages sid).getD []) ++ [userMessage content ucreated uts])
    (assistantPlaceholder acreated ats)
    (sendStart_cache st sid content ucreated acreated uts ats) rfl rfl
  have hfail : (sendMessageFailure sid content ucreated acreated uts ats evs errMsg st).sessionMessages sid
      = some ((((applyEvents sid evs
            ({ streamedContent := "", finalMessageId := "" },
             sendStart sid content ucreated acreated uts ats st)).2.sessionMessages sid).getD []).filter
          (fun m => !(strStartsWith m.id "temp-"))) := by
    show cacheSet _ sid _ sid = _
    rw [cacheSet_same]
  rw [hfail, h2]
  have hbase : (((st.sessionMessages sid).getD [])).filter
      (fun m => !(strStartsWith m.id "temp-"))
      = (st.sessionMessages sid).getD [] :=
    List.filter_eq_self.mpr (fun m hm => by simp [hpre m hm])
  simp only [Option.getD_some, List.filter_append, hbase]
  simp [tempUser_starts, tempAssistant_starts]

/-- C1 counterexample: a pre-send cache holding a finalized message that
kept a provisional identifier loses it in the rollback of a failing send,
so the final cached sequence differs from the pre-send sequence. -/
theorem sendMessage_failure_rollback_cex :
    ((sendMessageFailure "s1" "hi" "T" "T" 9 9 [] "boom" c1state).sessionMessages "s1").getD []
      ≠ (c1state.sessionMessages "s1").getD [] := by
  decide

/-- C1 witness: a failing send after one message event on a cache holding
one durable message restores exactly that pre-send sequence. -/
theorem sendMessage_failure_rollback_witness :
    ((sendMessageFailure "s1" "hi" "T" "T" 9 9 [StreamEvent.message "He"] "boom" w1state).sessionMessages "s1").getD []
      = (w1state.sessionMessages "s1").getD [] :=
  (sendMessage_failure_rollback w1state "s1" "hi" "T" "T" "boom" 9 9
    [StreamEvent.message "He"] (by decide)).1

/-- C3: after every event applied within one stream started on a session
whose cached sequence held no streaming element, the cached sequence of
that session contains exactly one element with the streaming flag set,
that element is the last one, and no other cache entry is changed by the
stream. -/
theorem stream_single_streaming_invariant
    (st : ChatState) (sid content ucreated acreated : String) (uts ats : Nat)
    (evs : List StreamEvent) (k : Nat)
    (hpre : ∀ m ∈ (st.sessionMessages sid).getD [], m.isStreaming = false) :
    (((midStreamState sid content ucreated acreated uts ats evs k st).sessionMessages sid).getD []).countP
        (fun m => m.isStreaming) = 1 ∧
    ((((midStreamState sid content ucreated acreated uts ats evs k st).sessionMessages sid).getD []).getLast?).map
        (fun m => m.isStreaming) = some true ∧
    ∀ q, q ≠ sid →
      (midStreamState sid content ucreated acreated uts ats evs k st).sessionMessages q
        = st.sessionMessages q := by
  obtain ⟨h1, h2, h3⟩ := applyEvents_cache sid (evs.take k)
    { streamedContent := "", finalMessageId := "" }
    (sendStart sid content ucreated acreated uts ats st)
    (((st.sessionMessages sid).getD []) ++ [userMessage content ucreated uts])
    (assistantPlaceholder acreated ats)
    (sendStart_cache st sid content ucreated acreated uts ats) rfl rfl
  have hm2 : (midStreamState sid content ucreated acreated uts ats evs k st).sessionMessages sid
      = some (((((st.sessionMessages sid)).getD [])
          ++ [userMessage content ucreated uts])
          ++ [{ assistantPlaceholder acreated ats with
                content := "" ++ chunksConcat (evs.take k) }]) := h2
  have hb : (((st.sessionMessages sid)).getD []).countP (fun m => m.isStreaming) = 0 :=
    List.countP_eq_zero.mpr (fun m hm => by simp [hpre m hm])
  refine ⟨?_, ?_, ?_⟩
  · rw [hm2]
    simp [List.countP_append, hb, List.countP_cons, userMessage, assistantPlaceholder]
  · rw [hm2]
    simp only [Option.getD_some, List.getLast?_concat, Option.map_some]
    rfl
  · intro q hq
    have h3q : (midStreamState sid content ucreated acreated uts ats evs k st).sessionMessages q
        = (sendStart sid content ucreated acreated uts ats st).sessionMessages q :=
      h3 q hq
    rw [h3q]
    exact cacheSet_ne _ _ _ _ hq

/-- C3 witness: on the fixture state, one message event into the stream
the invariant count is one. -/
theorem stream_single_streaming_witness :
    (((midStreamState "s1" "hi" "T" "T" 9 9 [StreamEvent.message "He"] 1 baseState).sessionMessages "s1").getD []).countP
        (fun m => m.isStreaming) = 1 :=
  (stream_single_streaming_invariant baseState "s1" "hi" "T" "T" 9 9
    [StreamEvent.message "He"] 1 (by decide)).1

/-- C4: a message event appends its fragment to the running buffer and
overwrites the content of the trailing streaming message with the whole
buffer, whatever that content was before; consequently, in a stream
started by sendMessage, after the first k events the trailing content
equals the concatenation of the message fragments among them, and the
buffer after a later prefix extends the buffer after an earlier one. -/
theorem message_event_replaces_content
    (sid c : String) (acc : StreamAcc) (st2 : ChatState)
    (ms : List Message) (a : Message)
    (hcache : st2.sessionMessages sid = some (ms ++ [a]))
    (ha : a.isStreaming = true)
    (st : ChatState) (content ucreated acreated : String) (uts ats : Nat)
    (evs : List StreamEvent) (j k : Nat) (hjk : j ≤ k) :
    (applyEvent sid (acc, st2) (StreamEvent.message c)).1.streamedContent
        = acc.streamedContent ++ c ∧
    (applyEvent sid (acc, st2) (StreamEvent.message c)).2.sessionMessages sid
        = some (ms ++ [{ a with content := acc.streamedContent ++ c }]) ∧
    ((((midStreamState sid content ucreated acreated uts ats evs k st).sessionMessages sid).getD []).getLast?).map
        (fun m => m.content) = some (chunksConcat (evs.take k)) ∧
    ∃ t, chunksConcat (evs.take k) = chunksConcat (evs.take j) ++ t := by
  have hset : setLastContent ((st2.sessionMessages sid).getD [])
      (acc.streamedContent ++ c)
      = ms ++ [{ a with content := acc.streamedContent ++ c }] := by
    rw [hcache]
    exact setLastContent_concat ms a _ ha
  refine ⟨rfl, ?_, ?_, ?_⟩
  · show cacheSet st2.sessionMessages sid
        (setLastContent ((st2.sessionMessages sid).getD [])
          (acc.streamedContent ++ c)) sid = _
    rw [hset, cacheSet_same]
  · obtain ⟨h1, h2, h3⟩ := applyEvents_cache sid (evs.take k)
      { streamedContent := "", finalMessageId := "" }
      (sendStart sid content ucreated acreated uts ats st)
      (((st.sessionMessages sid).getD []) ++ [userMessage content ucreated uts])
      (assistantPlaceholder acreated ats)
      (sendStart_cache st sid content ucreated acreated uts ats) rfl rfl
    have hm2 : (midStreamState sid content ucreated acreated uts ats evs k st).sessionMessages sid
        = some (((((st.sessionMessages sid)).getD [])
            ++ [userMessage content ucreated uts])
            ++ [{ assistantPlaceholder acreated ats with
                  content := "" ++ chunksConcat (evs.take k) }]) := h2
    rw [hm2]
    simp only [Option.getD_some, List.getLast?_concat, Option.map_some]
    rfl
  · refine ⟨chunksConcat (List.drop j (List.take k evs)), ?_⟩
    have htj : List.take j (List.take k evs) = List.take j evs := by
      rw [List.take_take, Nat.min_eq_left hjk]
    have hsplit : List.take k evs
        = List.take j evs ++ List.drop j (List.take k evs) := by
      rw [← htj]
      exact (List.take_append_drop j (List.take k evs)).symm
    conv_lhs => rw [hsplit]
    exact chunksConcat_append _ _

/-- C4 witness: one message event on the fixture stream state extends the
buffer with the new fragment. -/
theorem message_event_replaces_content_witness :
    (applyEvent "s1" ({ streamedContent := "Hi", finalMessageId := "" }, w4state)
        (StreamEvent.message " there")).1.streamedContent = "Hi there" :=
  (message_event_replaces_content "s1" " there"
    { streamedContent := "Hi", finalMessageId := "" } w4state [] streamingMsg
    (by decide) (by decide) baseState "x" "T" "T" 1 1 [] 0 0 (by decide)).1

end ChatStore
